import Mathlib

/-
Verification development for the mesh-node fitting miniapp
(miniapps/meshing/tmop-fit-position.cpp).

The driver file is embedded directly.  Library components that the driver
calls (the TMOP Newton solver, the quality metrics, the target constructor,
the options parser) are not part of the given sources; they are modelled
from the specification, and each such definition is marked
"Modelled from the spec:" in its doc comment.

Real numbers of the program are modelled by rationals; the transcendental
functions sin and cos of the math library and the constant M_PI are passed
as parameters (oracles), so every statement below is quantified over them
or instantiates them at points where their exact value is rational.
-/

/-- Pointwise update of a coordinate field, mirroring an assignment
to one scalar entry of a GridFunction. -/
def fset (f : ℕ → ℚ) (i : ℕ) (v : ℚ) : ℕ → ℚ :=
  fun k => if k = i then v else f k

/-- In-bounds update of a boolean array entry; out of range is a no-op. -/
def listSet : List Bool → ℕ → Bool → List Bool
  | [], _, _ => []
  | _ :: t, 0, v => v :: t
  | h :: t, n + 1, v => h :: listSet t n v

/-- One boundary element as seen by the driver loop: its number of scalar
degrees of freedom per component (GetDof), its attribute, and its vector
dof index list (GetBdrElementVDofs), laid out component by component. -/
structure BdrElem where
  nd : ℕ
  attr : ℤ
  vdofs : List ℕ
deriving DecidableEq

/-- Modelled from the spec: the finite-element space of the coordinate
field provides the spatial dimension d, the number of degrees of freedom
per spatial component N (returned by GetNDofs; the vector field has d*N
scalar coefficients in total), and the boundary-element enumeration
with attributes. -/
structure MeshData where
  dim : ℕ
  ndofs : ℕ
  bdr : List BdrElem
deriving DecidableEq

/-- The mutable state of the node-selection loop of the driver:
fit_marker (an Array of bool allocated with GetNDofs entries),
fit_marker_vis_gf, and coord_target.  The field coord is read by the
loop but never assigned, so it is a read-only parameter below. -/
structure FitLoopState where
  fit_marker : List Bool
  fit_marker_vis_gf : ℕ → ℚ
  coord_target : ℕ → ℚ

/-- The value the body of the selection loop assigns to the y slot of
the current dof (driver lines 104 to 124): for attribute 2 it is one of
the three sinusoidal expressions, chosen from the initial position of
the node, and for any other attribute it is y itself, that is
coord j_y.  Here x = coord j_x, and s, c, piv stand for sin, cos and
M_PI. -/
def target_write (coord : ℕ → ℚ) (s c : ℚ → ℚ) (piv : ℚ) (attr : ℤ)
    (j_x j_y : ℕ) (z : ℚ) : ℚ :=
  if attr = 2 then
    if coord j_y < 1/2 then
      (1/10) * s (4 * piv * coord j_x) * c (piv * z)
    else
      if coord j_x < 1/2 then
        1 + (1/10) * s (2 * piv * coord j_x)
      else
        1 + (1/10) * s (2 * piv * (coord j_x + 1/2))
  else
    coord j_y

/-- Body of the inner loop over the dofs of one boundary element
(driver lines 97 to 125): the dof is marked in fit_marker and in the
visualization field, and coord_target receives the target value at the
y slot j_y. -/
def bdr_dof_step (dim : ℕ) (coord : ℕ → ℚ) (s c : ℚ → ℚ) (piv : ℚ)
    (attr : ℤ) (nd : ℕ) (vdofs : List ℕ) (st : FitLoopState) (j : ℕ) :
    FitLoopState :=
  let j_x := vdofs.getD j 0
  let j_y := vdofs.getD (nd + j) 0
  let z : ℚ := if dim = 2 then 0 else coord (vdofs.getD (2 * nd + j) 0)
  ⟨listSet st.fit_marker j_x true,
   fset st.fit_marker_vis_gf j_x 1,
   fset st.coord_target j_y (target_write coord s c piv attr j_x j_y z)⟩

/-- Processing of one boundary element: the loop over j in [0, nd). -/
def bdr_elem_step (dim : ℕ) (coord : ℕ → ℚ) (s c : ℚ → ℚ) (piv : ℚ)
    (st : FitLoopState) (be : BdrElem) : FitLoopState :=
  (List.range be.nd).foldl (bdr_dof_step dim coord s c piv be.attr be.nd be.vdofs) st

/-- The whole node-selection section (driver lines 86 to 126): fit_marker
is allocated with GetNDofs entries and set to false, coord_target starts
as a copy of coord, fit_marker_vis_gf is zeroed, and then the loop over
the boundary elements runs. -/
def fit_setup_loop (m : MeshData) (coord : ℕ → ℚ) (s c : ℚ → ℚ) (piv : ℚ) :
    FitLoopState :=
  m.bdr.foldl (bdr_elem_step m.dim coord s c piv)
    ⟨List.replicate m.ndofs false, fun _ => 0, coord⟩

/-- The final fit marker handed to EnableSurfaceFitting. -/
def fit_marker_final (m : MeshData) (coord : ℕ → ℚ) (s c : ℚ → ℚ) (piv : ℚ) :
    List Bool :=
  (fit_setup_loop m coord s c piv).fit_marker

/-- The final target coordinate field handed to EnableSurfaceFitting. -/
def coord_target_final (m : MeshData) (coord : ℕ → ℚ) (s c : ℚ → ℚ) (piv : ℚ) :
    ℕ → ℚ :=
  (fit_setup_loop m coord s c piv).coord_target

/-- Well-formed vector-dof layout (byNODES ordering of the space): for
every boundary element, the entries in positions nd to 2*nd-1 of vdofs
(the y slots) are indices of y components, that is, they lie in
[N, 2*N). -/
def FitWF (m : MeshData) : Prop :=
  ∀ be ∈ m.bdr, ∀ j ∈ List.range be.nd,
    m.ndofs ≤ be.vdofs.getD (be.nd + j) 0 ∧
    be.vdofs.getD (be.nd + j) 0 < 2 * m.ndofs

instance (m : MeshData) : Decidable (FitWF m) := by
  unfold FitWF; infer_instance

/-- The coordinate-field variables of the driver around the solve call:
coord (the nodal GridFunction), the snapshot x0, and the result of the
node-selection loop. -/
structure DriverCoords where
  coord : ℕ → ℚ
  x0 : ℕ → ℚ
  fit : FitLoopState

/-- The sequence of assignments of the driver from the snapshot
x0(coord) up to the call solver.Mult (driver lines 83 to 171): the
snapshot is taken, the selection loop runs, coord is overwritten with
coord_target for the visualization of the targets, and then coord is
assigned back from x0. -/
def driver_before_solve (m : MeshData) (s c : ℚ → ℚ) (piv : ℚ)
    (init : ℕ → ℚ) : DriverCoords :=
  let coord := init
  let x0 := coord
  let st := fit_setup_loop m coord s c piv
  let _coord_vis := st.coord_target
  let coord_restored := x0
  ⟨coord_restored, x0, st⟩

/-- The option values the driver registers with the parser, with their
default values from lines 41 to 44 of the driver. -/
structure RunOptions where
  mesh_file : String
  rs_levels : ℤ
  mesh_poly_deg : ℤ
  quad_order : ℤ
deriving DecidableEq

/-- Default option values of the driver. -/
def default_options : RunOptions := ⟨"square01.mesh", 2, 2, 5⟩

/-- Modelled from the spec: the options parser (OptionsParser) is not in
the given sources.  Per the CLI surface of the spec, the recognized
options are -m and --mesh (string), -rs and --refine-serial, -o and
--order, -qo and --quad_order (integers); an unrecognized token, a missing or
non-numeric value, or a help request leaves the parser in a non-good
state.  The argument list is the command line after the program name. -/
def parse_args : List String → RunOptions → Option RunOptions
  | [], o => some o
  | [_], _ => none
  | a :: v :: rest, o =>
    if a = "-h" ∨ a = "--help" then none
    else if a = "-m" ∨ a = "--mesh" then
      parse_args rest ⟨v, o.rs_levels, o.mesh_poly_deg, o.quad_order⟩
    else if a = "-rs" ∨ a = "--refine-serial" then
      match v.toInt? with
      | some n => parse_args rest ⟨o.mesh_file, n, o.mesh_poly_deg, o.quad_order⟩
      | none => none
    else if a = "-o" ∨ a = "--order" then
      match v.toInt? with
      | some n => parse_args rest ⟨o.mesh_file, o.rs_levels, n, o.quad_order⟩
      | none => none
    else if a = "-qo" ∨ a = "--quad_order" then
      match v.toInt? with
      | some n => parse_args rest ⟨o.mesh_file, o.rs_levels, o.mesh_poly_deg, n⟩
      | none => none
    else none

/-- Exit code of main (driver lines 57 to 61 and 177): when the parser is
not in a good state, main prints the usage and returns 1; a run that
parsed its arguments and ran to completion returns 0. -/
def main_exit (argv : List String) : ℕ :=
  match parse_args argv default_options with
  | none => 1
  | some _ => 0

/-- The finite-element collection chosen for the mesh nodes. -/
inductive MeshFEC
  | QuadraticPosFEC : MeshFEC
  | H1FEC : ℤ → ℕ → MeshFEC
deriving DecidableEq

/-- Choice of the nodal finite-element collection and of the effective
polynomial order (driver lines 71 to 78): a non-positive -o value selects
the positivity-preserving quadratic basis and resets mesh_poly_deg to 2,
any other value selects the H1 collection of that order in dimension
dim. -/
def choose_fec (mesh_poly_deg : ℤ) (dim : ℕ) : MeshFEC × ℤ :=
  if mesh_poly_deg ≤ 0 then (MeshFEC.QuadraticPosFEC, 2)
  else (MeshFEC.H1FEC mesh_poly_deg dim, mesh_poly_deg)

/-- Kind of the Krylov linear solver. -/
inductive KrylovKind
  | MINRES : KrylovKind
  | CG : KrylovKind
  | GMRES : KrylovKind
deriving DecidableEq

/-- Configuration record of an iterative linear solver; the fields are
the ones the driver sets. -/
structure IterativeSolverState where
  kind : KrylovKind
  max_iter : ℕ
  rel_tol : ℚ
  abs_tol : ℚ
deriving DecidableEq

def IterativeSolverState.SetMaxIter (s : IterativeSolverState) (n : ℕ) :
    IterativeSolverState :=
  ⟨s.kind, n, s.rel_tol, s.abs_tol⟩

def IterativeSolverState.SetRelTol (s : IterativeSolverState) (t : ℚ) :
    IterativeSolverState :=
  ⟨s.kind, s.max_iter, t, s.abs_tol⟩

def IterativeSolverState.SetAbsTol (s : IterativeSolverState) (t : ℚ) :
    IterativeSolverState :=
  ⟨s.kind, s.max_iter, s.rel_tol, t⟩

/-- Modelled from the spec: a freshly built MINRESSolver, a
symmetric-indefinite Krylov method; default controls of an iterative
solver before any setter runs. -/
def MINRESSolver_new : IterativeSolverState :=
  ⟨KrylovKind.MINRES, 10, 0, 0⟩

/-- The inner linear solver exactly as the driver configures it
(lines 146 to 149). -/
def minres_setup : IterativeSolverState :=
  ((MINRESSolver_new.SetMaxIter 100).SetRelTol (1 / 10 ^ 12)).SetAbsTol 0

/-- Configuration record of the outer TMOP Newton solver; the fields are
the ones the driver sets, plus the linear solver it delegates the Newton
systems to. -/
structure TMOPNewtonSolverState where
  max_iter : ℕ
  rel_tol : ℚ
  abs_tol : ℚ
  print_level : ℤ
  adaptive_surf_fit : Bool
  surf_fit_max_err_limit : Option ℚ
  prec : Option IterativeSolverState
deriving DecidableEq

def TMOPNewtonSolverState.SetPreconditioner (s : TMOPNewtonSolverState)
    (p : IterativeSolverState) : TMOPNewtonSolverState :=
  ⟨s.max_iter, s.rel_tol, s.abs_tol, s.print_level, s.adaptive_surf_fit,
   s.surf_fit_max_err_limit, some p⟩

def TMOPNewtonSolverState.SetPrintLevel (s : TMOPNewtonSolverState) (l : ℤ) :
    TMOPNewtonSolverState :=
  ⟨s.max_iter, s.rel_tol, s.abs_tol, l, s.adaptive_surf_fit,
   s.surf_fit_max_err_limit, s.prec⟩

def TMOPNewtonSolverState.SetMaxIter (s : TMOPNewtonSolverState) (n : ℕ) :
    TMOPNewtonSolverState :=
  ⟨n, s.rel_tol, s.abs_tol, s.print_level, s.adaptive_surf_fit,
   s.surf_fit_max_err_limit, s.prec⟩

def TMOPNewtonSolverState.SetRelTol (s : TMOPNewtonSolverState) (t : ℚ) :
    TMOPNewtonSolverState :=
  ⟨s.max_iter, t, s.abs_tol, s.print_level, s.adaptive_surf_fit,
   s.surf_fit_max_err_limit, s.prec⟩

def TMOPNewtonSolverState.SetAbsTol (s : TMOPNewtonSolverState) (t : ℚ) :
    TMOPNewtonSolverState :=
  ⟨s.max_iter, s.rel_tol, t, s.print_level, s.adaptive_surf_fit,
   s.surf_fit_max_err_limit, s.prec⟩

def TMOPNewtonSolverState.EnableAdaptiveSurfaceFitting
    (s : TMOPNewtonSolverState) : TMOPNewtonSolverState :=
  ⟨s.max_iter, s.rel_tol, s.abs_tol, s.print_level, true,
   s.surf_fit_max_err_limit, s.prec⟩

def TMOPNewtonSolverState.SetTerminationWithMaxSurfaceFittingError
    (s : TMOPNewtonSolverState) (e : ℚ) : TMOPNewtonSolverState :=
  ⟨s.max_iter, s.rel_tol, s.abs_tol, s.print_level, s.adaptive_surf_fit,
   some e, s.prec⟩

/-- Modelled from the spec: a freshly built TMOPNewtonSolver, before any
setter runs; the adaptive fitting-weight schedule and the fit-based
termination are off by default. -/
def TMOPNewtonSolver_new : TMOPNewtonSolverState :=
  ⟨10, 0, 0, -1, false, none, none⟩

/-- The outer solver exactly as the driver configures it
(lines 156 to 165): the MINRES solver is attached, the print level is 1,
max_iter is 200, rel_tol is 10^-10, abs_tol is 0, the adaptive fitting
weight is enabled and the fit-error termination threshold is 10^-2. -/
def tmop_solver_setup : TMOPNewtonSolverState :=
  (((((((TMOPNewtonSolver_new.SetPreconditioner minres_setup).SetPrintLevel 1
    ).SetMaxIter 200).SetRelTol (1 / 10 ^ 10)).SetAbsTol 0
    ).EnableAdaptiveSurfaceFitting).SetTerminationWithMaxSurfaceFittingError (1 / 10 ^ 2))

/-- A 2 by 2 matrix with rational entries, written out entrywise so that
every functional of it is a plain arithmetic expression. -/
structure Mat2 where
  m11 : ℚ
  m12 : ℚ
  m21 : ℚ
  m22 : ℚ
deriving DecidableEq

def Mat2.det (T : Mat2) : ℚ := T.m11 * T.m22 - T.m12 * T.m21

/-- Squared Frobenius norm of a 2 by 2 matrix. -/
def Mat2.frobSq (T : Mat2) : ℚ :=
  T.m11 ^ 2 + T.m12 ^ 2 + T.m21 ^ 2 + T.m22 ^ 2

/-- Modelled from the spec: the 2D shape metric TMOP_Metric_002, written
through the invariant I1b = frobSq T / det T as one half I1b minus 1. -/
def TMOP_Metric_002_mu (T : Mat2) : ℚ :=
  (1 / 2) * (T.frobSq / T.det) - 1

/-- A 3 by 3 matrix with rational entries. -/
structure Mat3 where
  m11 : ℚ
  m12 : ℚ
  m13 : ℚ
  m21 : ℚ
  m22 : ℚ
  m23 : ℚ
  m31 : ℚ
  m32 : ℚ
  m33 : ℚ
deriving DecidableEq

def Mat3.det (T : Mat3) : ℚ :=
  T.m11 * (T.m22 * T.m33 - T.m23 * T.m32)
  - T.m12 * (T.m21 * T.m33 - T.m23 * T.m31)
  + T.m13 * (T.m21 * T.m32 - T.m22 * T.m31)

/-- Squared Frobenius norm of a 3 by 3 matrix. -/
def Mat3.frobSq (T : Mat3) : ℚ :=
  T.m11 ^ 2 + T.m12 ^ 2 + T.m13 ^ 2 +
  T.m21 ^ 2 + T.m22 ^ 2 + T.m23 ^ 2 +
  T.m31 ^ 2 + T.m32 ^ 2 + T.m33 ^ 2

/-- The adjugate (transposed cofactor matrix) of a 3 by 3 matrix. -/
def Mat3.adj (T : Mat3) : Mat3 :=
  ⟨T.m22 * T.m33 - T.m23 * T.m32,
   T.m13 * T.m32 - T.m12 * T.m33,
   T.m12 * T.m23 - T.m13 * T.m22,
   T.m23 * T.m31 - T.m21 * T.m33,
   T.m11 * T.m33 - T.m13 * T.m31,
   T.m13 * T.m21 - T.m11 * T.m23,
   T.m21 * T.m32 - T.m22 * T.m31,
   T.m12 * T.m31 - T.m11 * T.m32,
   T.m11 * T.m22 - T.m12 * T.m21⟩

/-- The inverse of a 3 by 3 matrix, as adjugate over determinant. -/
def Mat3.inv (T : Mat3) : Mat3 :=
  ⟨T.adj.m11 / T.det, T.adj.m12 / T.det, T.adj.m13 / T.det,
   T.adj.m21 / T.det, T.adj.m22 / T.det, T.adj.m23 / T.det,
   T.adj.m31 / T.det, T.adj.m32 / T.det, T.adj.m33 / T.det⟩

/-- Modelled from the spec: the 3D shape metric TMOP_Metric_302, written
through the invariants I1b I2b / 9 - 1, with
I1b I2b = frobSq T * frobSq (adj T) / (det T)^2. -/
def TMOP_Metric_302_mu (T : Mat3) : ℚ :=
  T.frobSq * T.adj.frobSq / T.det ^ 2 / 9 - 1

/-- Tag of the quality metric object the driver builds. -/
inductive MetricKind
  | Metric002 : MetricKind
  | Metric302 : MetricKind
deriving DecidableEq

/-- The driver picks the metric from the mesh dimension
(lines 136 to 138): TMOP_Metric_002 in dimension 2, TMOP_Metric_302
otherwise. -/
def choose_metric (dim : ℕ) : MetricKind :=
  if dim = 2 then MetricKind.Metric002 else MetricKind.Metric302

/-- The target-constructor variant; the core only requires the
shape- and size-ideal one. -/
inductive TargetType
  | IDEAL_SHAPE_UNIT_SIZE : TargetType
deriving DecidableEq

/-- The variant the driver passes to the TargetConstructor
(lines 139 and 140). -/
def driver_target_type : TargetType := TargetType.IDEAL_SHAPE_UNIT_SIZE

/-- Modelled from the spec: the TargetConstructor returns, for every
element e and quadrature point q, the target Jacobian; the
IDEAL_SHAPE_UNIT_SIZE variant returns the d by d identity matrix,
as a pure function of its arguments (no state). -/
def computeElementTargets (t : TargetType) (d _e _q : ℕ) :
    Matrix (Fin d) (Fin d) ℚ :=
  match t with
  | TargetType.IDEAL_SHAPE_UNIT_SIZE => 1

/-- Modelled from the spec: the callbacks the TMOP Newton solver sees.
Iterates are coordinate vectors (lists of true dofs).  The mesh has nE
elements with nQ quadrature points each, and detJ x e q is the Jacobian
determinant of the geometric map of element e at quadrature point q for
the coordinates x.  The objective obj w x is F(x; w), dir w x is the
direction the inner linear solve returns, resNorm x is the residual norm
and fitErr x is the max over fit-marked nodes of the distance to the
target position. -/
structure SolverOracle where
  nE : ℕ
  nQ : ℕ
  detJ : List ℚ → ℕ → ℕ → ℚ
  obj : ℚ → List ℚ → ℚ
  dir : ℚ → List ℚ → List ℚ
  resNorm : List ℚ → ℚ
  fitErr : List ℚ → ℚ

/-- Modelled from the spec: the controls of the outer Newton solver. -/
structure NewtonConfig where
  rtol : ℚ
  atol : ℚ
  maxIter : ℕ
  epsStar : ℚ
  maxLsIter : ℕ
  wCeil : ℚ

/-- Validity of a coordinate state: every element reports a strictly
positive Jacobian determinant at every quadrature point.  The integrator
raises the invalid-Jacobian condition exactly when this is false. -/
def meshValid (M : SolverOracle) (x : List ℚ) : Bool :=
  decide (∀ e ∈ List.range M.nE, ∀ q ∈ List.range M.nQ, 0 < M.detJ x e q)

/-- The trial point x + alpha * delta of the line search. -/
def addSmul (x d : List ℚ) (α : ℚ) : List ℚ :=
  List.zipWith (fun a b => a + α * b) x d

/-- Modelled from the spec: the validity-and-descent line search of the
Newton solver, one halving per unit of fuel.  A trial is accepted only
when no element reports invalid-Jacobian and the objective strictly
decreases; otherwise alpha is halved; none is a line-search failure. -/
def lineSearchAux (M : SolverOracle) (w Fx : ℚ) (x d : List ℚ) :
    ℕ → ℚ → Option (List ℚ)
  | 0, _ => none
  | n + 1, α =>
    let xt := addSmul x d α
    if meshValid M xt = true ∧ M.obj w xt < Fx then some xt
    else lineSearchAux M w Fx x d n (α / 2)

/-- The line search entered with alpha equal to 1. -/
def lineSearch (M : SolverOracle) (cfg : NewtonConfig) (w : ℚ)
    (x d : List ℚ) : Option (List ℚ) :=
  lineSearchAux M w (M.obj w x) x d cfg.maxLsIter 1

/-- Terminal state of the Newton solve. -/
inductive TermState
  | byFit : TermState
  | byRes : TermState
  | lsFail : TermState
  | iterLimit : TermState
deriving DecidableEq

/-- Result of the Newton solve: the accepted iterates in order, the
final coordinates, and the terminal state. -/
structure NewtonRun where
  trace : List (List ℚ)
  final : List ℚ
  term : TermState

/-- Modelled from the spec: the per-iteration contract of the TMOP
Newton solver.  Each round: return when the residual test and the fit
test both hold; otherwise take the inner-solver direction, run the line
search (a failed search returns the last valid iterate), accept the
trial, update the fitting weight (doubled when the fit error did not
decrease, capped by the ceiling), and stop early when the fit error
reaches the threshold. -/
def newtonLoop (M : SolverOracle) (cfg : NewtonConfig) (r0 : ℚ) :
    ℕ → List ℚ → ℚ → ℚ → NewtonRun
  | 0, x, _, _ => ⟨[], x, TermState.iterLimit⟩
  | k + 1, x, w, eps =>
    if M.resNorm x ≤ max (cfg.rtol * r0) cfg.atol ∧ eps ≤ cfg.epsStar then
      ⟨[], x, TermState.byRes⟩
    else
      match lineSearch M cfg w x (M.dir w x) with
      | none => ⟨[], x, TermState.lsFail⟩
      | some x1 =>
        let eps1 := M.fitErr x1
        let w1 := if eps ≤ eps1 then min (2 * w) cfg.wCeil else w
        if eps1 ≤ cfg.epsStar then ⟨[x1], x1, TermState.byFit⟩
        else
          let r := newtonLoop M cfg r0 k x1 w1 eps1
          ⟨x1 :: r.trace, r.final, r.term⟩

/-- Modelled from the spec: TMOPNewtonSolver.Mult, entered with the
initial coordinates and the initial fitting weight. -/
def newtonSolve (M : SolverOracle) (cfg : NewtonConfig)
    (x0 : List ℚ) (w0 : ℚ) : NewtonRun :=
  newtonLoop M cfg (M.resNorm x0) cfg.maxIter x0 w0 (M.fitErr x0)

/-- The property the specification asserts of the constructed target
coordinates: they agree with the initial coordinates on every x
component, on every z component, and on the y slot of every dof of
every boundary element whose attribute is not 2. -/
def coord_target_claim (m : MeshData) (coord : ℕ → ℚ) (s c : ℚ → ℚ)
    (piv : ℚ) : Prop :=
  (∀ i, i < m.ndofs → coord_target_final m coord s c piv i = coord i) ∧
  (∀ i, 2 * m.ndofs ≤ i → coord_target_final m coord s c piv i = coord i) ∧
  (∀ be ∈ m.bdr, be.attr ≠ 2 → ∀ j ∈ List.range be.nd,
    coord_target_final m coord s c piv (be.vdofs.getD (be.nd + j) 0) =
      coord (be.vdofs.getD (be.nd + j) 0))

/-- A small concrete two-dimensional mesh configuration: three nodes
(N = 3) with byNODES vector-dof layout, so x components are the indices
0, 1, 2 and y components are 3, 4, 5; two boundary segments of two dofs
each, with attributes 1 and 2, sharing the middle node 1. -/
def mesh_ex : MeshData :=
  ⟨2, 3, [⟨2, 1, [0, 1, 3, 4]⟩, ⟨2, 2, [1, 2, 4, 5]⟩]⟩

/-- Initial coordinates of the concrete mesh: all x components 0, all y
components 1/4. -/
def coord_ex : ℕ → ℚ := fun i => if i < 3 then 0 else 1/4

/-- Oracle for sin.  In the concrete configuration every sine argument
that is evaluated is 0 (the x coordinates are all 0), and sin 0 = 0, so
the constant function 0 agrees with the real sine at every point at
which the embedded code applies it. -/
def sin_ex : ℚ → ℚ := fun _ => 0

/-- Oracle for cos.  In the concrete configuration every cosine argument
that is evaluated is 0 (dim = 2 forces z = 0), and cos 0 = 1. -/
def cos_ex : ℚ → ℚ := fun _ => 1

/-- A concrete solver oracle for instantiating the Newton model: one
element with one quadrature point whose Jacobian determinant is
constantly 1, residual and fit error constantly 0. -/
def oracle_ex : SolverOracle :=
  ⟨1, 1, fun _ _ _ => 1, fun _ x => x.headD 0, fun _ _ => [0],
   fun _ => 0, fun _ => 0⟩

/-- The Newton controls the driver requests, with the line-search and
weight-ceiling values suggested by the specification. -/
def newton_cfg_ex : NewtonConfig :=
  ⟨1 / 10 ^ 10, 0, 200, 1 / 10 ^ 2, 12, 10 ^ 10⟩

theorem listSet_length (l : List Bool) (n : ℕ) (v : Bool) :
    (listSet l n v).length = l.length := by
  induction l generalizing n with
  | nil => rfl
  | cons h t ih =>
    cases n with
    | zero => rfl
    | succ k => simp [listSet, ih]

theorem bdr_dof_step_marker_length (dim : ℕ) (coord : ℕ → ℚ)
    (s c : ℚ → ℚ) (piv : ℚ) (attr : ℤ) (nd : ℕ) (vdofs : List ℕ)
    (st : FitLoopState) (j : ℕ) :
    (bdr_dof_step dim coord s c piv attr nd vdofs st j).fit_marker.length =
      st.fit_marker.length := by
  simp [bdr_dof_step, listSet_length]

theorem bdr_elem_step_marker_length (dim : ℕ) (coord : ℕ → ℚ)
    (s c : ℚ → ℚ) (piv : ℚ) (st : FitLoopState) (be : BdrElem) :
    (bdr_elem_step dim coord s c piv st be).fit_marker.length =
      st.fit_marker.length := by
  unfold bdr_elem_step
  generalize List.range be.nd = js
  induction js generalizing st with
  | nil => rfl
  | cons j js ih =>
    simp only [List.foldl_cons]
    rw [ih, bdr_dof_step_marker_length]

theorem fit_setup_loop_marker_length (m : MeshData) (coord : ℕ → ℚ)
    (s c : ℚ → ℚ) (piv : ℚ) :
    (fit_setup_loop m coord s c piv).fit_marker.length = m.ndofs := by
  unfold fit_setup_loop
  have h : ∀ (bes : List BdrElem) (st : FitLoopState),
      ((bes.foldl (bdr_elem_step m.dim coord s c piv) st).fit_marker.length)
        = st.fit_marker.length := by
    intro bes
    induction bes with
    | nil => intro st; rfl
    | cons be bes ih =>
      intro st
      simp only [List.foldl_cons]
      rw [ih, bdr_elem_step_marker_length]
  rw [h]
  simp

theorem fset_apply_ne (f : ℕ → ℚ) (n : ℕ) (v : ℚ) (k : ℕ) (h : k ≠ n) :
    fset f n v k = f k := by
  simp [fset, h]

theorem bdr_dof_step_ct (dim : ℕ) (coord : ℕ → ℚ) (s c : ℚ → ℚ)
    (piv : ℚ) (attr : ℤ) (nd : ℕ) (vdofs : List ℕ) (st : FitLoopState)
    (j i : ℕ) (h2 : attr = 2 → vdofs.getD (nd + j) 0 ≠ i)
    (hst : st.coord_target i = coord i) :
    (bdr_dof_step dim coord s c piv attr nd vdofs st j).coord_target i =
      coord i := by
  have key : (bdr_dof_step dim coord s c piv attr nd vdofs st j).coord_target
      = fset st.coord_target (vdofs.getD (nd + j) 0)
          (target_write coord s c piv attr (vdofs.getD j 0)
            (vdofs.getD (nd + j) 0)
            (if dim = 2 then 0 else coord (vdofs.getD (2 * nd + j) 0))) := rfl
  rw [key]
  by_cases hi : i = vdofs.getD (nd + j) 0
  · by_cases ha : attr = 2
    · exact absurd hi (Ne.symm (h2 ha))
    · subst hi
      simp [fset, target_write, ha]
  · rw [fset_apply_ne _ _ _ _ hi]
    exact hst

theorem bdr_elem_step_ct (dim : ℕ) (coord : ℕ → ℚ) (s c : ℚ → ℚ)
    (piv : ℚ) (be : BdrElem) (i : ℕ)
    (h2 : be.attr = 2 → ∀ j ∈ List.range be.nd,
      be.vdofs.getD (be.nd + j) 0 ≠ i) :
    ∀ st : FitLoopState, st.coord_target i = coord i →
      (bdr_elem_step dim coord s c piv st be).coord_target i = coord i := by
  unfold bdr_elem_step
  have hmem : ∀ j ∈ List.range be.nd, be.attr = 2 →
      be.vdofs.getD (be.nd + j) 0 ≠ i := by
    intro j hj ha; exact h2 ha j hj
  generalize hgen : List.range be.nd = js at hmem
  clear h2 hgen
  induction js with
  | nil => intro st hst; exact hst
  | cons j js ih =>
    intro st hst
    simp only [List.foldl_cons]
    refine ih (fun j' hj' => hmem j' (List.mem_cons_of_mem _ hj')) _ ?_
    exact bdr_dof_step_ct dim coord s c piv be.attr be.nd be.vdofs st j i
      (fun ha => hmem j (List.mem_cons_self _ _) ha) hst

theorem coord_target_final_preserved (m : MeshData) (coord : ℕ → ℚ)
    (s c : ℚ → ℚ) (piv : ℚ) (i : ℕ)
    (h2 : ∀ be ∈ m.bdr, be.attr = 2 → ∀ j ∈ List.range be.nd,
      be.vdofs.getD (be.nd + j) 0 ≠ i) :
    coord_target_final m coord s c piv i = coord i := by
  unfold coord_target_final fit_setup_loop
  have h : ∀ (bes : List BdrElem),
      (∀ be ∈ bes, be.attr = 2 → ∀ j ∈ List.range be.nd,
        be.vdofs.getD (be.nd + j) 0 ≠ i) →
      ∀ st : FitLoopState, st.coord_target i = coord i →
        ((bes.foldl (bdr_elem_step m.dim coord s c piv) st).coord_target i)
          = coord i := by
    intro bes
    induction bes with
    | nil => intro _ st hst; exact hst
    | cons be bes ih =>
      intro hb st hst
      simp only [List.foldl_cons]
      refine ih (fun b hbm => hb b (List.mem_cons_of_mem _ hbm)) _ ?_
      exact bdr_elem_step_ct m.dim coord s c piv be i
        (hb be (List.mem_cons_self _ _)) st hst
  exact h m.bdr h2 _ rfl

theorem lineSearchAux_some (M : SolverOracle) (w Fx : ℚ) (x d : List ℚ) :
    ∀ (n : ℕ) (α : ℚ) (xt : List ℚ),
      lineSearchAux M w Fx x d n α = some xt →
      meshValid M xt = true ∧ M.obj w xt < Fx := by
  intro n
  induction n with
  | zero =>
    intro α xt h
    simp [lineSearchAux] at h
  | succ k ih =>
    intro α xt h
    simp only [lineSearchAux] at h
    by_cases hc : meshValid M (addSmul x d α) = true ∧
        M.obj w (addSmul x d α) < Fx
    · rw [if_pos hc] at h
      cases h
      exact hc
    · rw [if_neg hc] at h
      exact ih _ _ h

theorem lineSearch_some (M : SolverOracle) (cfg : NewtonConfig) (w : ℚ)
    (x d xt : List ℚ) (h : lineSearch M cfg w x d = some xt) :
    meshValid M xt = true ∧ M.obj w xt < M.obj w x := by
  unfold lineSearch at h
  exact lineSearchAux_some M w (M.obj w x) x d cfg.maxLsIter 1 xt h

theorem newtonLoop_valid (M : SolverOracle) (cfg : NewtonConfig) (r0 : ℚ) :
    ∀ (fuel : ℕ) (x : List ℚ) (w eps : ℚ), meshValid M x = true →
      (∀ y ∈ (newtonLoop M cfg r0 fuel x w eps).trace,
        meshValid M y = true) ∧
      meshValid M (newtonLoop M cfg r0 fuel x w eps).final = true := by
  intro fuel
  induction fuel with
  | zero =>
    intro x w eps hx
    exact ⟨fun y hy => absurd hy (List.not_mem_nil y), hx⟩
  | succ k ih =>
    intro x w eps hx
    by_cases hconv : M.resNorm x ≤ max (cfg.rtol * r0) cfg.atol ∧
        eps ≤ cfg.epsStar
    · simp only [newtonLoop, if_pos hconv]
      exact ⟨fun y hy => absurd hy (List.not_mem_nil y), hx⟩
    · cases hls : lineSearch M cfg w x (M.dir w x) with
      | none =>
        simp only [newtonLoop, if_neg hconv, hls]
        exact ⟨fun y hy => absurd hy (List.not_mem_nil y), hx⟩
      | some x1 =>
        have hx1 : meshValid M x1 = true := (lineSearch_some M cfg w x _ x1 hls).1
        by_cases hfit : M.fitErr x1 ≤ cfg.epsStar
        · simp only [newtonLoop, if_neg hconv, hls, if_pos hfit]
          refine ⟨fun y hy => ?_, hx1⟩
          rcases List.mem_singleton.mp hy with rfl
          exact hx1
        · simp only [newtonLoop, if_neg hconv, hls, if_neg hfit]
          obtain ⟨ht, hf⟩ := ih x1
            (if eps ≤ M.fitErr x1 then min (2 * w) cfg.wCeil else w)
            (M.fitErr x1) hx1
          refine ⟨fun y hy => ?_, hf⟩
          rcases List.mem_cons.mp hy with rfl | hy
          · exact hx1
          · exact ht y hy

/-- C1: for every accepted iterate of the TMOP Newton solve, that is for
every state of the node-coordinate field after a step is accepted,
including the final output, the Jacobian of the geometric map has
strictly positive determinant at every quadrature point of every
element, whenever the initial state is itself not inverted. -/
theorem tmop_newton_no_inversion_invariant (M : SolverOracle)
    (cfg : NewtonConfig) (x0 : List ℚ) (w0 : ℚ)
    (h0 : ∀ e ∈ List.range M.nE, ∀ q ∈ List.range M.nQ,
      0 < M.detJ x0 e q) :
    (∀ y ∈ (newtonSolve M cfg x0 w0).trace,
      ∀ e ∈ List.range M.nE, ∀ q ∈ List.range M.nQ, 0 < M.detJ y e q) ∧
    (∀ e ∈ List.range M.nE, ∀ q ∈ List.range M.nQ,
      0 < M.detJ (newtonSolve M cfg x0 w0).final e q) := by
  have hx0 : meshValid M x0 = true := decide_eq_true h0
  obtain ⟨ht, hf⟩ := newtonLoop_valid M cfg (M.resNorm x0) cfg.maxIter
    x0 w0 (M.fitErr x0) hx0
  exact ⟨fun y hy => of_decide_eq_true (ht y hy), of_decide_eq_true hf⟩

/-- Witness for C1 at a concrete solver instance: the initial state of
the one-element oracle satisfies the positivity hypothesis, and the
final output of the solve has positive Jacobian determinant. -/
theorem tmop_newton_no_inversion_invariant_witness :
    (∀ e ∈ List.range oracle_ex.nE, ∀ q ∈ List.range oracle_ex.nQ,
      0 < oracle_ex.detJ [1] e q) ∧
    0 < oracle_ex.detJ
      (newtonSolve oracle_ex newton_cfg_ex [1] 100).final 0 0 :=
  ⟨by intro e he q hq; norm_num [oracle_ex],
   (tmop_newton_no_inversion_invariant oracle_ex newton_cfg_ex [1] 100
      (by intro e he q hq; norm_num [oracle_ex])).2
     0 (by decide) 0 (by decide)⟩

/-- C2: the outer TMOP Newton solver is configured with maximum
iteration count 200, relative residual tolerance 10^-10, absolute
tolerance 0, the adaptive surface-fitting weight schedule enabled, and
surface-fit termination threshold 10^-2. -/
theorem tmop_newton_solver_configuration :
    tmop_solver_setup.max_iter = 200 ∧
    tmop_solver_setup.rel_tol = 1 / 10 ^ 10 ∧
    tmop_solver_setup.abs_tol = 0 ∧
    tmop_solver_setup.adaptive_surf_fit = true ∧
    tmop_solver_setup.surf_fit_max_err_limit = some (1 / 10 ^ 2) :=
  ⟨rfl, rfl, rfl, rfl, rfl⟩

/-- C3: for a two-dimensional mesh the driver uses TMOP_Metric_002, the
2D shape metric mu = (1/2) * frobSq T / det T - 1, and for a
three-dimensional mesh it uses TMOP_Metric_302, the 3D shape metric
mu = frobSq T * frobSq (inverse T) / 9 - 1. -/
theorem quality_metric_selection :
    (choose_metric 2 = MetricKind.Metric002 ∧
      ∀ T : Mat2, TMOP_Metric_002_mu T = (1/2) * T.frobSq / T.det - 1) ∧
    (choose_metric 3 = MetricKind.Metric302 ∧
      ∀ T : Mat3, TMOP_Metric_302_mu T =
        T.frobSq * T.inv.frobSq / 9 - 1) := by
  refine ⟨⟨rfl, fun T => by unfold TMOP_Metric_002_mu; ring⟩,
    ⟨rfl, fun T => ?_⟩⟩
  have hinv : T.inv.frobSq = T.adj.frobSq / T.det ^ 2 := by
    unfold Mat3.inv Mat3.frobSq
    ring
  rw [hinv]
  unfold TMOP_Metric_302_mu
  ring

/-- C4: the driver requests the IDEAL_SHAPE_UNIT_SIZE target variant,
and that variant returns the d by d identity matrix at every quadrature
point of every element, as a pure function of its arguments. -/
theorem target_constructor_ideal_identity :
    driver_target_type = TargetType.IDEAL_SHAPE_UNIT_SIZE ∧
    ∀ d e q : ℕ, computeElementTargets driver_target_type d e q = 1 ∧
      ∀ i j : Fin d, computeElementTargets driver_target_type d e q i j =
        if i = j then 1 else 0 :=
  ⟨rfl, fun _ _ _ => ⟨rfl, fun _ _ => Matrix.one_apply⟩⟩

/-- C5 counterexample: the claim says the fit marker has d * N entries,
one per scalar coefficient of the vector-valued coordinate field; on the
concrete mesh with d = 2 and N = 3 the marker built by the driver has
GetNDofs = N = 3 entries, not 6. -/
theorem fit_marker_size_counterexample :
    (fit_marker_final mesh_ex coord_ex sin_ex cos_ex 3).length ≠
      mesh_ex.dim * mesh_ex.ndofs := by
  decide

/-- C5 amended: the fit marker is a bitmap with one entry per node,
that is per scalar degree of freedom of a single component, of size N
(GetNDofs), and it is a value fixed before the solve. -/
theorem fit_marker_size_ndofs (m : MeshData) (coord : ℕ → ℚ)
    (s c : ℚ → ℚ) (piv : ℚ) :
    (fit_marker_final m coord s c piv).length = m.ndofs :=
  fit_setup_loop_marker_length m coord s c piv

/-- C6: the inner linear solver attached to the Newton solver is of
MINRES kind (symmetric indefinite Krylov), with absolute tolerance 0,
relative tolerance 10^-12 and maximum iteration count 100. -/
theorem minres_inner_solver_configuration :
    tmop_solver_setup.prec = some minres_setup ∧
    minres_setup.kind = KrylovKind.MINRES ∧
    minres_setup.abs_tol = 0 ∧
    minres_setup.rel_tol = 1 / 10 ^ 12 ∧
    minres_setup.max_iter = 100 :=
  ⟨rfl, rfl, rfl, rfl, rfl⟩

/-- C7: the exit code of main is 1 exactly when argument parsing fails,
and 0 exactly when the arguments parse and the run completes. -/
theorem main_exit_code_spec (argv : List String) :
    (main_exit argv = 1 ↔ parse_args argv default_options = none) ∧
    (main_exit argv = 0 ↔ (parse_args argv default_options).isSome = true) := by
  unfold main_exit
  cases h : parse_args argv default_options with
  | none => simp
  | some o => simp

/-- C8: a command-line order value of at most 0 selects the
positivity-preserving quadratic collection with effective order 2, and
any order of at least 1 selects the H1 collection of that order in the
mesh dimension. -/
theorem mesh_fec_order_choice (p : ℤ) (d : ℕ) :
    (p ≤ 0 → choose_fec p d = (MeshFEC.QuadraticPosFEC, 2)) ∧
    (1 ≤ p → choose_fec p d = (MeshFEC.H1FEC p d, p)) := by
  constructor
  · intro h
    simp [choose_fec, h]
  · intro h
    rw [choose_fec, if_neg (by omega)]

/-- Witness for C8 at the concrete orders 0 and 3. -/
theorem mesh_fec_order_choice_witness :
    ((0 : ℤ) ≤ 0 ∧ choose_fec 0 2 = (MeshFEC.QuadraticPosFEC, 2)) ∧
    ((1 : ℤ) ≤ 3 ∧ choose_fec 3 2 = (MeshFEC.H1FEC 3 2, 3)) :=
  ⟨⟨by decide, (mesh_fec_order_choice 0 2).1 (by decide)⟩,
   ⟨by decide, (mesh_fec_order_choice 3 2).2 (by decide)⟩⟩

/-- C9: the node-coordinate field is restored from the snapshot x0
after the target visualization, so the coordinates handed to the Newton
solver equal the initial mesh coordinates, and the snapshot x0 equals
the initial coordinates throughout; the selection loop output is the
target field, unaffected by the restore. -/
theorem coord_restored_before_solve (m : MeshData) (s c : ℚ → ℚ)
    (piv : ℚ) (init : ℕ → ℚ) :
    (driver_before_solve m s c piv init).coord = init ∧
    (driver_before_solve m s c piv init).x0 = init ∧
    (driver_before_solve m s c piv init).fit.coord_target =
      coord_target_final m init s c piv :=
  ⟨rfl, rfl, rfl⟩

/-- C10 counterexample: the claim asserts in particular that the target
field keeps the initial y value at every dof of every boundary element
whose attribute is not 2; on the concrete well-formed mesh, the node
shared by the attribute-1 and the attribute-2 segments (y slot 4) ends
with the sinusoidal value 0 instead of its initial value 1/4, because
the attribute-2 element is enumerated later. -/
theorem coord_target_claim_counterexample :
    FitWF mesh_ex ∧
    ¬ coord_target_claim mesh_ex coord_ex sin_ex cos_ex 3 := by
  refine ⟨by decide, fun h => ?_⟩
  obtain ⟨-, -, h3⟩ := h
  have hmem : (⟨2, 1, [0, 1, 3, 4]⟩ : BdrElem) ∈ mesh_ex.bdr := by
    simp [mesh_ex]
  have hy := h3 _ hmem (by decide) 1 (by decide)
  have h4 : (⟨2, 1, [0, 1, 3, 4]⟩ : BdrElem).vdofs.getD
      ((⟨2, 1, [0, 1, 3, 4]⟩ : BdrElem).nd + 1) 0 = 4 := rfl
  rw [h4] at hy
  have hv : coord_target_final mesh_ex coord_ex sin_ex cos_ex 3 4 = 0 := by
    norm_num [coord_target_final, fit_setup_loop, mesh_ex, bdr_elem_step,
      bdr_dof_step, target_write, fset, coord_ex, sin_ex, cos_ex,
      List.range_succ]
  have hc : coord_ex 4 = 1/4 := rfl
  rw [hv, hc] at hy
  exact absurd hy (by norm_num)

/-- C10 amended: the constructed target field equals the initial
coordinates at every index that is not a y slot of some boundary element
of attribute 2; in particular, under the byNODES layout, at every x
component and every z component.  Only y slots of attribute-2 boundary
elements can receive a modified value, and a y slot shared with an
element of another attribute keeps whichever write the boundary
enumeration performs last. -/
theorem coord_target_modified_only_attr2_y (m : MeshData)
    (coord : ℕ → ℚ) (s c : ℚ → ℚ) (piv : ℚ) (hwf : FitWF m) :
    (∀ i, (∀ be ∈ m.bdr, be.attr = 2 → ∀ j ∈ List.range be.nd,
        be.vdofs.getD (be.nd + j) 0 ≠ i) →
      coord_target_final m coord s c piv i = coord i) ∧
    (∀ i, i < m.ndofs → coord_target_final m coord s c piv i = coord i) ∧
    (∀ i, 2 * m.ndofs ≤ i →
      coord_target_final m coord s c piv i = coord i) := by
  refine ⟨fun i hi => coord_target_final_preserved m coord s c piv i hi,
    fun i hi => ?_, fun i hi => ?_⟩
  · refine coord_target_final_preserved m coord s c piv i ?_
    intro be hbe _ j hj
    obtain ⟨hlo, hhi⟩ := hwf be hbe j hj
    omega
  · refine coord_target_final_preserved m coord s c piv i ?_
    intro be hbe _ j hj
    obtain ⟨hlo, hhi⟩ := hwf be hbe j hj
    omega

/-- Witness for C10 at the concrete mesh: the layout is well formed and
the x component 2 keeps its initial value. -/
theorem coord_target_modified_only_attr2_y_witness :
    FitWF mesh_ex ∧
    coord_target_final mesh_ex coord_ex sin_ex cos_ex 3 2 = coord_ex 2 :=
  ⟨by decide,
   (coord_target_modified_only_attr2_y mesh_ex coord_ex sin_ex cos_ex 3
      (by decide)).2.1 2 (by decide)⟩
